import Mathlib

/-!
Verification of the schema normalizer and listing interceptor of
`context_portal_mcp/core/openai_compat.py`.

The JSON values handled by `patch_schema_for_openai` are modelled by a mutual
inductive family: `JValue` for a Python/JSON value, `JArr` for a Python list of
values, `JObj` for a Python dict (an insertion-ordered association list with
unique keys, as Python dicts are). In-place mutation of an acyclic tree of
dicts is rendered as a pure function returning the mutated tree.
-/

mutual

inductive JValue : Type where
  | null : JValue
  | bool : Bool → JValue
  | num : Int → JValue
  | str : String → JValue
  | arr : JArr → JValue
  | obj : JObj → JValue

inductive JArr : Type where
  | nil : JArr
  | cons : JValue → JArr → JArr

inductive JObj : Type where
  | nil : JObj
  | cons : String → JValue → JObj → JObj

end

/-- Lookup of `d[key]` / `d.get(key)` on a Python dict rendered as an
association list (keys are unique in a Python dict, so first match wins). -/
def lookupField : JObj → String → Option JValue
  | JObj.nil, _ => Option.none
  | JObj.cons k v rest, key => if k == key then some v else lookupField rest key

/-- Membership test `key in d` on a Python dict. -/
def containsKey (o : JObj) (key : String) : Bool :=
  (lookupField o key).isSome

/-- The test `schema.get('type') == 'object'` from the source. -/
def isObjectType (o : JObj) : Bool :=
  match lookupField o "type" with
  | some (JValue.str s) => s == "object"
  | _ => false

/-- Appending a fresh key at the end of a dict, which is where
`schema['additionalProperties'] = False` puts the key when it was absent
(Python dicts preserve insertion order). -/
def appendField : JObj → String → JValue → JObj
  | JObj.nil, k, v => JObj.cons k v JObj.nil
  | JObj.cons k' v' rest, k, v => JObj.cons k' v' (appendField rest k v)

/-- The guard `isinstance(schema, dict)` from the source. -/
def isDict : JValue → Bool
  | JValue.obj _ => true
  | _ => false

mutual

/-- Shallow embedding of `patch_schema_for_openai` (openai_compat.py, lines
21-47). The source mutates `schema` in place and returns it; on an acyclic
tree this is the returned pure value. Step order of the source: (1) non-dict
inputs are returned unchanged; (2) if `schema.get('type') == 'object'`, set
`schema['additionalProperties'] = False`; (3) for `anyOf`/`oneOf`/`allOf`
holding a list, recurse into every element; (4) for a dict-valued
`properties`, recurse into every value; (5) if `items` is present, recurse
into `schema['items']` (whatever it is: a non-dict comes back unchanged);
(6) if `additionalProperties` is present and is a dict, recurse into it —
after step 2 ran, so for an object-typed node the field already holds the
boolean `False` and step 6 does not fire. Each key of the dict is rewritten
by at most one of these steps, so the in-place steps are rendered as one pass
over the entries (`patchFields`), plus the append of step 2 when the key was
absent. -/
def patch_schema_for_openai : JValue → JValue
  | JValue.obj fields =>
      let b := isObjectType fields
      let patched := patchFields b fields
      if b && !containsKey fields "additionalProperties" then
        JValue.obj (appendField patched "additionalProperties" (JValue.bool false))
      else
        JValue.obj patched
  | v => v

/-- One pass over the entries of a dict met by `patch_schema_for_openai`;
`b` records whether the node was recognized as object-typed (step 2). -/
def patchFields : Bool → JObj → JObj
  | _, JObj.nil => JObj.nil
  | b, JObj.cons k v rest =>
      let v' :=
        if k == "anyOf" || k == "oneOf" || k == "allOf" then
          match v with
          | JValue.arr xs => JValue.arr (patchElems xs)
          | _ => v
        else if k == "properties" then
          match v with
          | JValue.obj props => JValue.obj (patchProps props)
          | _ => v
        else if k == "items" then patch_schema_for_openai v
        else if k == "additionalProperties" then
          (if b then JValue.bool false
           else
             match v with
             | JValue.obj _ => patch_schema_for_openai v
             | _ => v)
        else v
      JObj.cons k v' (patchFields b rest)

/-- The loop `for item in schema[key]: patch_schema_for_openai(item)` over a
list-valued composition key. -/
def patchElems : JArr → JArr
  | JArr.nil => JArr.nil
  | JArr.cons x rest => JArr.cons (patch_schema_for_openai x) (patchElems rest)

/-- The loop `for prop_value in schema['properties'].values():
patch_schema_for_openai(prop_value)`. -/
def patchProps : JObj → JObj
  | JObj.nil => JObj.nil
  | JObj.cons k v rest => JObj.cons k (patch_schema_for_openai v) (patchProps rest)

end

/-- The rewriting applied to a single dict entry by the pass `patchFields`,
as a standalone function (definitionally the entry case of `patchFields`). -/
def patchFieldValue (b : Bool) (k : String) (v : JValue) : JValue :=
  if k == "anyOf" || k == "oneOf" || k == "allOf" then
    match v with
    | JValue.arr xs => JValue.arr (patchElems xs)
    | _ => v
  else if k == "properties" then
    match v with
    | JValue.obj props => JValue.obj (patchProps props)
    | _ => v
  else if k == "items" then patch_schema_for_openai v
  else if k == "additionalProperties" then
    (if b then JValue.bool false
     else
       match v with
       | JValue.obj _ => patch_schema_for_openai v
       | _ => v)
  else v

theorem patchFields_cons (b : Bool) (k : String) (v : JValue) (rest : JObj) :
    patchFields b (JObj.cons k v rest) =
      JObj.cons k (patchFieldValue b k v) (patchFields b rest) := by
  cases v <;> simp only [patchFields, patchFieldValue]

example :
    patch_schema_for_openai (JValue.obj (JObj.cons "type" (JValue.str "object") JObj.nil)) =
      JValue.obj (JObj.cons "type" (JValue.str "object")
        (JObj.cons "additionalProperties" (JValue.bool false) JObj.nil)) := rfl

mutual

/-- All nodes of a JSON value, the value itself included, in preorder. -/
def subnodesV : JValue → List JValue
  | JValue.arr xs => JValue.arr xs :: subnodesA xs
  | JValue.obj o => JValue.obj o :: subnodesO o
  | v => [v]

/-- Nodes of every element of a list. -/
def subnodesA : JArr → List JValue
  | JArr.nil => []
  | JArr.cons x rest => subnodesV x ++ subnodesA rest

/-- Nodes of every value of a dict. -/
def subnodesO : JObj → List JValue
  | JObj.nil => []
  | JObj.cons _ v rest => subnodesV v ++ subnodesO rest

end

/-- The dict `{"type": "object"}`: an object-typed Schema Node. -/
def c1InnerObj : JObj := JObj.cons "type" (JValue.str "object") JObj.nil

/-- The node `{"type": "object"}` as a value. -/
def c1Inner : JValue := JValue.obj c1InnerObj

/-- The schema `{"items": [{"type": "object"}]}`: tuple validation whose only
element is object-typed. -/
def c1Schema : JValue :=
  JValue.obj (JObj.cons "items" (JValue.arr (JArr.cons c1Inner JArr.nil)) JObj.nil)

/-- C1: for every object-typed subnode M reachable through JSON Schema's
nesting constructs, `patch_schema_for_openai` sets M's `additionalProperties`
to false. The code violates this: on `{"items": [{"type": "object"}]}` the
recursive call receives the list `[{"type": "object"}]`, which is not a dict
and is returned unchanged, so the object-typed element keeps no
`additionalProperties` key at all — the schema comes back exactly as it went
in, contradicting the docstring's "add additionalProperties: false to all
object types". -/
theorem C1_tuple_items_object_subnode_unpatched :
    patch_schema_for_openai c1Schema = c1Schema
    ∧ c1Inner ∈ subnodesV (patch_schema_for_openai c1Schema)
    ∧ isObjectType c1InnerObj = true
    ∧ lookupField c1InnerObj "additionalProperties" = Option.none := by
  refine ⟨rfl, ?_, rfl, rfl⟩
  have h : subnodesV (patch_schema_for_openai c1Schema) =
      [c1Schema, JValue.arr (JArr.cons c1Inner JArr.nil), c1Inner, JValue.str "object"] := rfl
  rw [h]
  exact List.mem_cons_of_mem _ (List.mem_cons_of_mem _ (List.mem_cons_self _ _))

/-- The schema `{"items": [{"type": "object"}, {"type": "string"}]}`:
tuple validation with an object-typed first element. -/
def c3Schema : JValue :=
  JValue.obj (JObj.cons "items"
    (JValue.arr (JArr.cons (JValue.obj (JObj.cons "type" (JValue.str "object") JObj.nil))
      (JArr.cons (JValue.obj (JObj.cons "type" (JValue.str "string") JObj.nil)) JArr.nil)))
    JObj.nil)

/-- C3: claimed — a sequence-valued `items` has each element normalized
individually. The code instead hands the whole list to the recursive call,
whose `isinstance(schema, dict)` guard fails, so the list is returned
unchanged and no element is visited: the schema is returned exactly as it
went in, while normalizing the object-typed first element alone would have
added `additionalProperties: false` to it. -/
theorem C3_tuple_items_elements_not_normalized :
    patch_schema_for_openai c3Schema = c3Schema
    ∧ patch_schema_for_openai (JValue.obj (JObj.cons "type" (JValue.str "object") JObj.nil)) =
        JValue.obj (JObj.cons "type" (JValue.str "object")
          (JObj.cons "additionalProperties" (JValue.bool false) JObj.nil)) :=
  ⟨rfl, rfl⟩

/-- C9: a value that is not a dict — `isinstance(schema, dict)` fails — is
returned unchanged by `patch_schema_for_openai`; this is the terminal case of
the recursion, not an error. (The function is a total Lean definition, so it
completes on every finite acyclic input.) -/
theorem C9_non_dict_returned_unchanged (v : JValue) (h : isDict v = false) :
    patch_schema_for_openai v = v := by
  cases v
  any_goals simp [patch_schema_for_openai]
  simp [isDict] at h

/-- Witness for C9 at the string `"hello"` and at null. -/
theorem C9_witness :
    isDict (JValue.str "hello") = false
    ∧ patch_schema_for_openai (JValue.str "hello") = JValue.str "hello" :=
  ⟨rfl, C9_non_dict_returned_unchanged (JValue.str "hello") rfl⟩

/-- Induction along the entry spine of a dict (the values are not recursed
into), usable where the generic mutual recursor is inconvenient. -/
theorem jobjEntryInduction {motive : JObj → Prop} (nil : motive JObj.nil)
    (cons : ∀ (k : String) (v : JValue) (rest : JObj), motive rest → motive (JObj.cons k v rest)) :
    ∀ o : JObj, motive o
  | JObj.nil => nil
  | JObj.cons k v rest => cons k v rest (jobjEntryInduction nil cons rest)

theorem lookup_patchFields (b : Bool) (o : JObj) (key : String) :
    lookupField (patchFields b o) key = (lookupField o key).map (patchFieldValue b key) := by
  induction o using jobjEntryInduction with
  | nil => simp [patchFields, lookupField]
  | cons k v rest ih =>
      rw [patchFields_cons]
      by_cases hk : (k == key) = true
      · have hk' : k = key := by simpa using hk
        subst hk'
        simp [lookupField]
      · have hk' : (k == key) = false := by simpa using hk
        simp [lookupField, hk', ih]

theorem containsKey_patchFields (b : Bool) (o : JObj) (key : String) :
    containsKey (patchFields b o) key = containsKey o key := by
  simp [containsKey, lookup_patchFields]

theorem lookup_appendField (o : JObj) (k : String) (v : JValue) (key : String) :
    lookupField (appendField o k v) key =
      match lookupField o key with
      | some w => some w
      | Option.none => if k == key then some v else Option.none := by
  induction o using jobjEntryInduction with
  | nil => simp [appendField, lookupField]
  | cons k' v' rest ih =>
      by_cases hk : (k' == key) = true
      · simp [appendField, lookupField, hk]
      · have hk' : (k' == key) = false := by simpa using hk
        simp [appendField, lookupField, hk', ih]

theorem containsKey_appendField_self (o : JObj) (k : String) (v : JValue) :
    containsKey (appendField o k v) k = true := by
  rw [containsKey, lookup_appendField]
  cases h : lookupField o k <;> simp

theorem patchFields_appendField (b : Bool) (o : JObj) (k : String) (v : JValue) :
    patchFields b (appendField o k v) =
      appendField (patchFields b o) k (patchFieldValue b k v) := by
  induction o using jobjEntryInduction with
  | nil =>
      simp only [appendField, patchFields_cons]
      simp [patchFields, appendField]
  | cons k' v' rest ih =>
      cases v' <;> simp only [appendField, patchFields_cons, ih, patchFieldValue, patchFields]

theorem pfv_type (b : Bool) (v : JValue) : patchFieldValue b "type" v = v := by
  simp [patchFieldValue]

theorem pfv_aP_true (v : JValue) :
    patchFieldValue true "additionalProperties" v = JValue.bool false := by
  simp [patchFieldValue]

theorem isObjectType_patchFields (b : Bool) (o : JObj) :
    isObjectType (patchFields b o) = isObjectType o := by
  rw [isObjectType, isObjectType, lookup_patchFields]
  cases h : lookupField o "type" with
  | none => rfl
  | some v => simp [pfv_type]

theorem isObjectType_appendField_aP (o : JObj) (v : JValue) :
    isObjectType (appendField o "additionalProperties" v) = isObjectType o := by
  rw [isObjectType, isObjectType, lookup_appendField]
  cases h : lookupField o "type" with
  | none => simp
  | some w => rfl

theorem patch_obj_shape (o : JObj) :
    ∃ o2 : JObj, patch_schema_for_openai (JValue.obj o) = JValue.obj o2 := by
  rw [patch_schema_for_openai]
  by_cases h : (isObjectType o && !containsKey o "additionalProperties") = true
  · rw [if_pos h]
    exact ⟨_, rfl⟩
  · rw [if_neg h]
    exact ⟨_, rfl⟩

mutual

theorem patch_idem : (v : JValue) →
    patch_schema_for_openai (patch_schema_for_openai v) = patch_schema_for_openai v
  | JValue.null => by simp [patch_schema_for_openai]
  | JValue.bool b => by simp [patch_schema_for_openai]
  | JValue.num n => by simp [patch_schema_for_openai]
  | JValue.str s => by simp [patch_schema_for_openai]
  | JValue.arr xs => by simp [patch_schema_for_openai]
  | JValue.obj fields => by
      cases hb : isObjectType fields with
      | false =>
          have h1 : patch_schema_for_openai (JValue.obj fields) =
              JValue.obj (patchFields false fields) := by
            simp [patch_schema_for_openai, hb]
          have hb2 : isObjectType (patchFields false fields) = false := by
            rw [isObjectType_patchFields]; exact hb
          have h2 : patch_schema_for_openai (JValue.obj (patchFields false fields)) =
              JValue.obj (patchFields false (patchFields false fields)) := by
            simp [patch_schema_for_openai, hb2]
          rw [h1, h2, patchFields_idem false fields]
      | true =>
          cases hc : containsKey fields "additionalProperties" with
          | true =>
              have h1 : patch_schema_for_openai (JValue.obj fields) =
                  JValue.obj (patchFields true fields) := by
                simp [patch_schema_for_openai, hb, hc]
              have hb2 : isObjectType (patchFields true fields) = true := by
                rw [isObjectType_patchFields]; exact hb
              have hc2 : containsKey (patchFields true fields) "additionalProperties" = true := by
                rw [containsKey_patchFields]; exact hc
              have h2 : patch_schema_for_openai (JValue.obj (patchFields true fields)) =
                  JValue.obj (patchFields true (patchFields true fields)) := by
                simp [patch_schema_for_openai, hb2, hc2]
              rw [h1, h2, patchFields_idem true fields]
          | false =>
              have h1 : patch_schema_for_openai (JValue.obj fields) =
                  JValue.obj (appendField (patchFields true fields) "additionalProperties"
                    (JValue.bool false)) := by
                simp [patch_schema_for_openai, hb, hc]
              have hb2 : isObjectType (appendField (patchFields true fields)
                  "additionalProperties" (JValue.bool false)) = true := by
                rw [isObjectType_appendField_aP, isObjectType_patchFields]; exact hb
              have hc2 : containsKey (appendField (patchFields true fields)
                  "additionalProperties" (JValue.bool false)) "additionalProperties" = true :=
                containsKey_appendField_self _ _ _
              have h2 : patch_schema_for_openai (JValue.obj (appendField (patchFields true fields)
                  "additionalProperties" (JValue.bool false))) =
                  JValue.obj (patchFields true (appendField (patchFields true fields)
                    "additionalProperties" (JValue.bool false))) := by
                simp [patch_schema_for_openai, hb2, hc2]
              rw [h1, h2, patchFields_appendField, patchFields_idem true fields, pfv_aP_true]
termination_by v => (sizeOf v, 0)

theorem patchFields_idem : (b : Bool) → (o : JObj) →
    patchFields b (patchFields b o) = patchFields b o
  | _, JObj.nil => by simp [patchFields]
  | b, JObj.cons k v rest => by
      simp only [patchFields_cons]
      rw [pfv_idem b k v, patchFields_idem b rest]
termination_by _ o => (sizeOf o, 1)

theorem pfv_idem : (b : Bool) → (k : String) → (v : JValue) →
    patchFieldValue b k (patchFieldValue b k v) = patchFieldValue b k v
  | b, k, v => by
      cases h1 : (k == "anyOf" || k == "oneOf" || k == "allOf") with
      | true =>
          cases v
          case arr xs =>
            simp [patchFieldValue, h1]
            exact patchElems_idem xs
          all_goals simp [patchFieldValue, h1]
      | false =>
          cases h2 : (k == "properties") with
          | true =>
              cases v
              case obj props =>
                simp [patchFieldValue, h1, h2]
                exact patchProps_idem props
              all_goals simp [patchFieldValue, h1, h2]
          | false =>
              cases h3 : (k == "items") with
              | true =>
                  simp [patchFieldValue, h1, h2, h3]
                  exact patch_idem v
              | false =>
                  cases h4 : (k == "additionalProperties") with
                  | true =>
                      cases b with
                      | true => simp [patchFieldValue, h1, h2, h3, h4]
                      | false =>
                          cases v
                          case obj props =>
                            have hp := patch_idem (JValue.obj props)
                            obtain ⟨o2, ho2⟩ := patch_obj_shape props
                            rw [ho2] at hp
                            simp [patchFieldValue, h1, h2, h3, h4, ho2]
                            exact hp
                          all_goals simp [patchFieldValue, h1, h2, h3, h4]
                  | false => simp [patchFieldValue, h1, h2, h3, h4]
termination_by _ _ v => (sizeOf v, 2)

theorem patchElems_idem : (a : JArr) →
    patchElems (patchElems a) = patchElems a
  | JArr.nil => by simp [patchElems]
  | JArr.cons x rest => by
      simp only [patchElems]
      rw [patch_idem x, patchElems_idem rest]
termination_by a => (sizeOf a, 1)

theorem patchProps_idem : (o : JObj) →
    patchProps (patchProps o) = patchProps o
  | JObj.nil => by simp [patchProps]
  | JObj.cons k v rest => by
      simp only [patchProps]
      rw [patch_idem v, patchProps_idem rest]
termination_by o => (sizeOf o, 1)

end

/-- C4: `patch_schema_for_openai` is idempotent — a second application to the
tree produced by a first application returns a structurally equal tree. -/
theorem C4_patch_schema_idempotent (v : JValue) :
    patch_schema_for_openai (patch_schema_for_openai v) = patch_schema_for_openai v :=
  patch_idem v

theorem pfv_other (b : Bool) (k : String) (v : JValue)
    (h1 : (k == "anyOf") = false) (h2 : (k == "oneOf") = false) (h3 : (k == "allOf") = false)
    (h4 : (k == "properties") = false) (h5 : (k == "items") = false)
    (h6 : (k == "additionalProperties") = false) :
    patchFieldValue b k v = v := by
  simp [patchFieldValue, h1, h2, h3, h4, h5, h6]

theorem pfv_aP_false (v : JValue) :
    patchFieldValue false "additionalProperties" v = patch_schema_for_openai v := by
  cases v <;> simp [patchFieldValue, patch_schema_for_openai]

/-- C10: the function only ever writes the `additionalProperties` key, and
only on dicts whose `type` is exactly the string "object". At any dict:
any key other than the six keys the traversal touches keeps exactly its old
value; and when the node is not object-typed, no `additionalProperties` key
is added, and an existing `additionalProperties` value changes only by the
recursive normalization of that value (which leaves non-dict values as they
were). -/
theorem C10_only_aP_written_only_on_object_nodes (o : JObj) (k : String)
    (hk1 : k ≠ "additionalProperties") (hk2 : k ≠ "anyOf") (hk3 : k ≠ "oneOf")
    (hk4 : k ≠ "allOf") (hk5 : k ≠ "properties") (hk6 : k ≠ "items") :
    ∃ o2 : JObj, patch_schema_for_openai (JValue.obj o) = JValue.obj o2
      ∧ lookupField o2 k = lookupField o k
      ∧ (isObjectType o = false →
          containsKey o2 "additionalProperties" = containsKey o "additionalProperties"
          ∧ ∀ v : JValue, lookupField o "additionalProperties" = some v →
              lookupField o2 "additionalProperties" = some (patch_schema_for_openai v)) := by
  have hbk1 : (k == "additionalProperties") = false := beq_eq_false_iff_ne.mpr hk1
  have hbk2 : (k == "anyOf") = false := beq_eq_false_iff_ne.mpr hk2
  have hbk3 : (k == "oneOf") = false := beq_eq_false_iff_ne.mpr hk3
  have hbk4 : (k == "allOf") = false := beq_eq_false_iff_ne.mpr hk4
  have hbk5 : (k == "properties") = false := beq_eq_false_iff_ne.mpr hk5
  have hbk6 : (k == "items") = false := beq_eq_false_iff_ne.mpr hk6
  have hpres : ∀ b : Bool, lookupField (patchFields b o) k = lookupField o k := by
    intro b
    rw [lookup_patchFields]
    cases h : lookupField o k with
    | none => rfl
    | some v => simp [pfv_other b k v hbk2 hbk3 hbk4 hbk5 hbk6 hbk1]
  cases hb : isObjectType o with
  | false =>
      refine ⟨patchFields false o, by simp [patch_schema_for_openai, hb], hpres false, ?_⟩
      intro _
      constructor
      · exact containsKey_patchFields false o "additionalProperties"
      · intro v hv
        rw [lookup_patchFields, hv]
        simp [pfv_aP_false]
  | true =>
      cases hc : containsKey o "additionalProperties" with
      | true =>
          refine ⟨patchFields true o, by simp [patch_schema_for_openai, hb, hc],
            hpres true, ?_⟩
          intro h
          simp at h
      | false =>
          refine ⟨appendField (patchFields true o) "additionalProperties" (JValue.bool false),
            by simp [patch_schema_for_openai, hb, hc], ?_, ?_⟩
          · rw [lookup_appendField, hpres true]
            have hbk1' : ("additionalProperties" == k) = false :=
              beq_eq_false_iff_ne.mpr (Ne.symm hk1)
            cases h : lookupField o k with
            | none => simp [hbk1']
            | some w => simp
          · intro h
            simp at h

/-- Witness for C10 at the dict `{"title": "T"}` and the key "title". -/
theorem C10_witness :
    ∃ o2 : JObj,
      patch_schema_for_openai (JValue.obj (JObj.cons "title" (JValue.str "T") JObj.nil)) =
        JValue.obj o2
      ∧ lookupField o2 "title" =
          lookupField (JObj.cons "title" (JValue.str "T") JObj.nil) "title"
      ∧ (isObjectType (JObj.cons "title" (JValue.str "T") JObj.nil) = false →
          containsKey o2 "additionalProperties" =
            containsKey (JObj.cons "title" (JValue.str "T") JObj.nil) "additionalProperties"
          ∧ ∀ v : JValue,
              lookupField (JObj.cons "title" (JValue.str "T") JObj.nil) "additionalProperties" =
                some v →
              lookupField o2 "additionalProperties" = some (patch_schema_for_openai v)) :=
  C10_only_aP_written_only_on_object_nodes (JObj.cons "title" (JValue.str "T") JObj.nil) "title"
    (by decide) (by decide) (by decide) (by decide) (by decide) (by decide)

/-- Python truthiness of a JSON value, as used by the guard
`if hasattr(tool, 'inputSchema') and tool.inputSchema:` in the source —
None, False, 0, the empty string, the empty list and the empty dict are
falsy, everything else is truthy. -/
def truthy : JValue → Bool
  | JValue.null => false
  | JValue.bool b => b
  | JValue.num n => !(n == 0)
  | JValue.str s => !(s == "")
  | JValue.arr JArr.nil => false
  | JValue.arr _ => true
  | JValue.obj JObj.nil => false
  | JValue.obj _ => true

/-- A tool descriptor as read by `patched_list_tools`: a name (used only for
the debug log line), an optional input schema (`Option.none` models a missing
or None `inputSchema` attribute), and `extra` standing for every other
attribute of the descriptor object, which the wrapper never touches. -/
structure Tool where
  name : String
  inputSchema : Option JValue
  extra : JValue

/-- The value returned by one invocation of `list_tools`: an optional
collection of tool descriptors (`Option.none` models a result object without
a `tools` attribute, the `hasattr(result, 'tools')` guard), plus `extra` for
any other attributes, untouched by the wrapper. -/
structure ListToolsResult where
  tools : Option (List Tool)
  extra : JValue

/-- The effect of the loop body of `patched_list_tools` on one descriptor:
a present, truthy `inputSchema` is patched in place by
`patch_schema_for_openai`; otherwise the descriptor is untouched. -/
def patchTool (t : Tool) : Tool :=
  match t.inputSchema with
  | some s =>
      if truthy s then { t with inputSchema := some (patch_schema_for_openai s) } else t
  | Option.none => t

/-- The loop `for tool in result.tools:` of `patched_list_tools`, returning
the (in-place mutated) descriptors and the debug log lines emitted, in loop
order. -/
def patchToolsLoop : List Tool → List Tool × List String
  | [] => ([], [])
  | t :: rest =>
      let tail := patchToolsLoop rest
      match t.inputSchema with
      | some s =>
          if truthy s then
            ({ t with inputSchema := some (patch_schema_for_openai s) } :: tail.1,
              ("Patched schema for tool: " ++ t.name) :: tail.2)
          else (t :: tail.1, tail.2)
      | Option.none => (t :: tail.1, tail.2)

/-- Shallow embedding of the closure `patched_list_tools` (openai_compat.py,
lines 64-76), closure-converted so the captured `original_list_tools` is a
parameter. `α` is the type of the passed-through `*args, **kwargs`. A raised
exception is an `Except.error`: the wrapper calls the original operation
outside any try block, so an error from it is returned as-is, before any
descriptor is visited or any log line emitted. The second component is the
list of emitted debug log lines. -/
def patched_list_tools {α : Type} (original_list_tools : α → Except String ListToolsResult)
    (args : α) : Except String ListToolsResult × List String :=
  match original_list_tools args with
  | Except.error e => (Except.error e, [])
  | Except.ok result =>
      match result.tools with
      | some ts =>
          let p := patchToolsLoop ts
          (Except.ok { result with tools := some p.1 }, p.2)
      | Option.none => (Except.ok result, [])

/-- The server handle seen by `patch_mcp_server_for_openai`: an optional
`list_tools` capability (`Option.none` models `hasattr(server, 'list_tools')`
failing), plus `extra` for the rest of the handle, which the installer never
touches. -/
structure Server (α : Type) where
  list_tools : Option (α → Except String ListToolsResult)
  extra : JValue

/-- Shallow embedding of `patch_mcp_server_for_openai` (openai_compat.py,
lines 50-87). The one step of the try block with caller-visible effects that
can raise is the attribute rebinding `server.list_tools = patched_list_tools`
(on a Python object an attribute assignment can run arbitrary `__setattr__`
code); it is therefore passed as the `rebind` parameter, returning either the
updated handle or the raised exception. A raise lands in the except clause:
an error log line and `False`. When the capability is absent the try block
falls through to the final `return False` with nothing logged or mutated.
The third component is the list of emitted info/error log lines. -/
def patch_mcp_server_for_openai {α : Type}
    (rebind : Server α → (α → Except String ListToolsResult) → Except String (Server α))
    (server : Server α) : Server α × Bool × List String :=
  match server.list_tools with
  | some original_list_tools =>
      match rebind server (fun args => (patched_list_tools original_list_tools args).1) with
      | Except.ok s2 =>
          (s2, true, ["Successfully patched MCP server for OpenAI compatibility"])
      | Except.error e =>
          (server, false, ["Failed to patch MCP server for OpenAI compatibility: " ++ e])
  | Option.none => (server, false, [])

/-- The behavior of a plain, non-raising attribute assignment
`server.list_tools = patched_list_tools`: the handle with the capability
rebound. -/
def defaultRebind {α : Type} (s : Server α) (f : α → Except String ListToolsResult) :
    Except String (Server α) :=
  Except.ok { s with list_tools := some f }

theorem patchToolsLoop_fst (ts : List Tool) : (patchToolsLoop ts).1 = ts.map patchTool := by
  induction ts with
  | nil => rfl
  | cons t rest ih =>
      cases h : t.inputSchema with
      | none => simp [patchToolsLoop, patchTool, h, ih]
      | some s =>
          cases hs : truthy s with
          | true => simp [patchToolsLoop, patchTool, h, hs, ih]
          | false => simp [patchToolsLoop, patchTool, h, hs, ih]

/-- C5: installing the patch on a handle exposing the listing capability
rebinds it to the wrapper and reports true; every invocation of the wrapped
capability on which the original succeeds with a descriptor collection
returns the same result object whose descriptors are mapped in place — so
the collection keeps its length and order — and the per-descriptor mapping
patches a present, truthy schema with `patch_schema_for_openai` and leaves a
descriptor with an absent or falsy (empty) schema exactly as it was. -/
theorem C5_installed_wrapper_normalizes_every_listing {α : Type} (server : Server α)
    (orig : α → Except String ListToolsResult) (h : server.list_tools = some orig) :
    patch_mcp_server_for_openai defaultRebind server =
      ({ server with list_tools := some (fun a => (patched_list_tools orig a).1) }, true,
        ["Successfully patched MCP server for OpenAI compatibility"])
    ∧ (∀ (args : α) (res : ListToolsResult) (ts : List Tool),
        orig args = Except.ok res → res.tools = some ts →
          (patched_list_tools orig args).1 =
            Except.ok { res with tools := some (ts.map patchTool) }
          ∧ (ts.map patchTool).length = ts.length
          ∧ ∀ i : Nat, (ts.map patchTool)[i]? = Option.map patchTool ts[i]?)
    ∧ (∀ t : Tool, (patchTool t).name = t.name ∧ (patchTool t).extra = t.extra
        ∧ (∀ s : JValue, t.inputSchema = some s → truthy s = true →
            (patchTool t).inputSchema = some (patch_schema_for_openai s))
        ∧ (t.inputSchema = Option.none → patchTool t = t)
        ∧ (∀ s : JValue, t.inputSchema = some s → truthy s = false → patchTool t = t)) := by
  refine ⟨by simp [patch_mcp_server_for_openai, h, defaultRebind], ?_, ?_⟩
  · intro args res ts h1 h2
    refine ⟨by simp [patched_list_tools, h1, h2, patchToolsLoop_fst], by simp, ?_⟩
    intro i
    simp
  · intro t
    refine ⟨?_, ?_, ?_, ?_, ?_⟩
    · cases h1 : t.inputSchema with
      | none => simp [patchTool, h1]
      | some s => cases hs : truthy s <;> simp [patchTool, h1, hs]
    · cases h1 : t.inputSchema with
      | none => simp [patchTool, h1]
      | some s => cases hs : truthy s <;> simp [patchTool, h1, hs]
    · intro s h1 hs
      simp [patchTool, h1, hs]
    · intro h1
      simp [patchTool, h1]
    · intro s h1 hs
      simp [patchTool, h1, hs]

/-- A concrete tool whose schema is the object-typed dict
`{"type": "object"}`. -/
def c5Tool : Tool :=
  { name := "log_decision",
    inputSchema := some (JValue.obj (JObj.cons "type" (JValue.str "object") JObj.nil)),
    extra := JValue.null }

/-- A concrete listing capability producing one descriptor. -/
def c5Orig : Unit → Except String ListToolsResult :=
  fun _ => Except.ok { tools := some [c5Tool], extra := JValue.null }

/-- A concrete handle exposing `c5Orig` as its listing capability. -/
def c5Server : Server Unit := { list_tools := some c5Orig, extra := JValue.null }

/-- Witness for C5: on the concrete handle the wrapped capability returns the
one descriptor with its schema patched. -/
theorem C5_witness :
    (patched_list_tools c5Orig ()).1 =
      Except.ok { tools := some [patchTool c5Tool], extra := JValue.null } := by
  have h := (C5_installed_wrapper_normalizes_every_listing c5Server c5Orig rfl).2.1 ()
    { tools := some [c5Tool], extra := JValue.null } [c5Tool] rfl rfl
  exact h.1

/-- C6: on a handle without a `list_tools` capability the installer returns
false, mutates nothing (the returned handle is the one given) and logs
nothing — for any possible behavior of attribute rebinding, which is never
invoked. -/
theorem C6_absent_capability_false_no_mutation {α : Type}
    (rebind : Server α → (α → Except String ListToolsResult) → Except String (Server α))
    (server : Server α) (h : server.list_tools = Option.none) :
    patch_mcp_server_for_openai rebind server = (server, false, []) := by
  simp [patch_mcp_server_for_openai, h]

/-- Witness for C6 on a concrete capability-less handle. -/
theorem C6_witness :
    patch_mcp_server_for_openai defaultRebind
        { list_tools := Option.none, extra := JValue.null : Server Unit } =
      ({ list_tools := Option.none, extra := JValue.null : Server Unit }, false, []) :=
  C6_absent_capability_false_no_mutation defaultRebind
    { list_tools := Option.none, extra := JValue.null } rfl

/-- C7: with the capability present, installation returns the rebound handle
and true with the success log line when the rebinding completes, and — being
a total function into `Server α × Bool × List String`, not into `Except` —
never propagates a raise: when the rebinding raises, the exception is caught,
an error log line describing it is emitted, and false is returned with the
handle unchanged. -/
theorem C7_install_reports_and_never_propagates {α : Type}
    (rebind : Server α → (α → Except String ListToolsResult) → Except String (Server α))
    (server : Server α) (orig : α → Except String ListToolsResult)
    (h : server.list_tools = some orig) :
    (∀ s2 : Server α,
        rebind server (fun a => (patched_list_tools orig a).1) = Except.ok s2 →
        patch_mcp_server_for_openai rebind server =
          (s2, true, ["Successfully patched MCP server for OpenAI compatibility"]))
    ∧ (∀ e : String,
        rebind server (fun a => (patched_list_tools orig a).1) = Except.error e →
        patch_mcp_server_for_openai rebind server =
          (server, false, ["Failed to patch MCP server for OpenAI compatibility: " ++ e])) := by
  constructor
  · intro s2 hx
    simp [patch_mcp_server_for_openai, h, hx]
  · intro e hx
    simp [patch_mcp_server_for_openai, h, hx]

/-- A rebinding that raises, modelling an attribute assignment whose
`__setattr__` throws. -/
def raisingRebind : Server Unit → (Unit → Except String ListToolsResult) →
    Except String (Server Unit) :=
  fun _ _ => Except.error "setattr exploded"

/-- Witness for C7: on the concrete handle with a raising rebind the
installer returns false and the error log line instead of propagating. -/
theorem C7_witness :
    patch_mcp_server_for_openai raisingRebind c5Server =
      (c5Server, false,
        ["Failed to patch MCP server for OpenAI compatibility: setattr exploded"]) :=
  (C7_install_reports_and_never_propagates raisingRebind c5Server c5Orig rfl).2
    "setattr exploded" rfl

/-- C8: a failure raised by the original `list_tools` propagates unchanged
through the wrapper — the wrapper has no try around the original call — and
in that case no descriptor is normalized and no log line is emitted. -/
theorem C8_original_failure_propagates_unchanged {α : Type}
    (orig : α → Except String ListToolsResult) (args : α) (e : String)
    (h : orig args = Except.error e) :
    patched_list_tools orig args = (Except.error e, []) := by
  simp [patched_list_tools, h]

/-- A listing capability that always raises. -/
def failingOrig : Unit → Except String ListToolsResult :=
  fun _ => Except.error "database gone"

/-- Witness for C8 on the concrete raising capability. -/
theorem C8_witness :
    patched_list_tools failingOrig () = (Except.error "database gone", []) :=
  C8_original_failure_propagates_unchanged failingOrig () "database gone" rfl

/-!
A second, heap-based embedding of `patch_schema_for_openai`, needed for the
claims about reference aliasing and about the order between overwriting
`additionalProperties` and recursing into it: a Python dict is a mutable heap
object, so a value holds a reference (`HVal.ref`) to a dict stored in a heap,
and in-place mutation updates the heap. The function is fueled because the
source performs no cycle detection: on a cyclic heap the Python code would
recurse forever, and `Option.none` models running out of fuel. On a finite
acyclic heap a large enough fuel reproduces the Python execution exactly,
each traversal step re-reading the current state of the dict it works on,
in source order. -/

/-- A Python value as stored in a dict field or list element: scalars and
lists by value, dicts by reference into the heap. -/
inductive HVal : Type where
  | pynone : HVal
  | pybool : Bool → HVal
  | pyint : Int → HVal
  | pystr : String → HVal
  | pylist : List HVal → HVal
  | ref : Nat → HVal

/-- A Python dict: insertion-ordered entries with unique keys. -/
abbrev HDict := List (String × HVal)

/-- The heap: addresses bound to dict objects. -/
abbrev Heap := List (Nat × HDict)

/-- Read the dict object at an address. -/
def heapGet : Heap → Nat → Option HDict
  | [], _ => Option.none
  | (a, d) :: rest, addr => if a == addr then some d else heapGet rest addr

/-- Replace the dict object at an address (no-op on an unknown address,
which the traversal never produces). -/
def heapSet : Heap → Nat → HDict → Heap
  | [], _, _ => []
  | (a, d) :: rest, addr, d2 =>
      if a == addr then (a, d2) :: rest else (a, d) :: heapSet rest addr d2

/-- Lookup `d[key]` / `d.get(key)` in a dict object. -/
def dictGet : HDict → String → Option HVal
  | [], _ => Option.none
  | (k, v) :: rest, key => if k == key then some v else dictGet rest key

/-- Assignment `d[key] = v`: overwrite in place, or append when absent. -/
def dictSet : HDict → String → HVal → HDict
  | [], key, v => [(key, v)]
  | (k, w) :: rest, key, v =>
      if k == key then (key, v) :: rest else (k, w) :: dictSet rest key v

/-- The test `schema.get('type') == 'object'` on a dict object. -/
def isObjectTypeH (d : HDict) : Bool :=
  match dictGet d "type" with
  | some (HVal.pystr s) => s == "object"
  | _ => false

mutual

/-- Heap-based embedding of `patch_schema_for_openai`: patch the value `v`
(a no-op unless it is a reference to a dict), threading the heap through the
source's steps in order — set `additionalProperties` to False on an
object-typed dict first, then recurse into `anyOf`, `oneOf`, `allOf`,
`properties`, `items`, and last into `additionalProperties` when its current
value is (still) a dict reference. -/
def patchSchemaHeap : Nat → Heap → HVal → Option Heap
  | 0, _, _ => Option.none
  | Nat.succ fuel, h, v =>
      match v with
      | HVal.ref a =>
          match heapGet h a with
          | Option.none => some h
          | some d =>
              let h1 :=
                if isObjectTypeH d then
                  heapSet h a (dictSet d "additionalProperties" (HVal.pybool false))
                else h
              (patchCompKeyHeap fuel h1 a "anyOf").bind (fun h2 =>
                (patchCompKeyHeap fuel h2 a "oneOf").bind (fun h3 =>
                  (patchCompKeyHeap fuel h3 a "allOf").bind (fun h4 =>
                    (patchPropsHeap fuel h4 a).bind (fun h5 =>
                      (patchItemsHeap fuel h5 a).bind (fun h6 =>
                        patchAddPropsHeap fuel h6 a)))))
      | _ => some h
termination_by fuel _ _ => (fuel, 0, 0)

/-- One step `if key in schema and isinstance(schema[key], list): for item in
schema[key]: patch_schema_for_openai(item)`, re-reading the dict at `a` from
the current heap. -/
def patchCompKeyHeap (fuel : Nat) (h : Heap) (a : Nat) (key : String) : Option Heap :=
  match heapGet h a with
  | Option.none => some h
  | some d =>
      match dictGet d key with
      | some (HVal.pylist xs) => patchHeapList fuel h xs
      | _ => some h
termination_by (fuel, 2, 0)

/-- Patch a list of values left to right, threading the heap. -/
def patchHeapList : Nat → Heap → List HVal → Option Heap
  | _, h, [] => some h
  | fuel, h, x :: rest =>
      (patchSchemaHeap fuel h x).bind (fun h2 => patchHeapList fuel h2 rest)
termination_by fuel _ xs => (fuel, 1, xs.length)

/-- The step `if 'properties' in schema and isinstance(schema['properties'],
dict): for prop_value in schema['properties'].values(): ...`. -/
def patchPropsHeap (fuel : Nat) (h : Heap) (a : Nat) : Option Heap :=
  match heapGet h a with
  | Option.none => some h
  | some d =>
      match dictGet d "properties" with
      | some (HVal.ref p) =>
          match heapGet h p with
          | some pd => patchHeapList fuel h (pd.map Prod.snd)
          | Option.none => some h
      | _ => some h
termination_by (fuel, 2, 0)

/-- The step `if 'items' in schema: patch_schema_for_openai(schema['items'])`
(no isinstance guard: a non-reference value is handed to the recursive call
and comes back without effect). -/
def patchItemsHeap (fuel : Nat) (h : Heap) (a : Nat) : Option Heap :=
  match heapGet h a with
  | Option.none => some h
  | some d =>
      match dictGet d "items" with
      | some v => patchSchemaHeap fuel h v
      | Option.none => some h
termination_by (fuel, 2, 0)

/-- The step `if 'additionalProperties' in schema and
isinstance(schema['additionalProperties'], dict): ...`, reading the field
after the earlier steps possibly overwrote it with the boolean False. -/
def patchAddPropsHeap (fuel : Nat) (h : Heap) (a : Nat) : Option Heap :=
  match heapGet h a with
  | Option.none => some h
  | some d =>
      match dictGet d "additionalProperties" with
      | some (HVal.ref p) => patchSchemaHeap fuel h (HVal.ref p)
      | _ => some h
termination_by (fuel, 2, 0)

end

/-- On a heap holding at address 0 an object-typed dict whose
`additionalProperties` is a reference to address 1, the patch overwrites the
field with False at address 0 and never reads address 1: whatever dict
`rest` is stored there is returned untouched, for every amount of fuel. -/
theorem patchHeap_aP_ref_never_visited (rest : HDict) (fuel : Nat) :
    patchSchemaHeap (fuel + 1)
        [(0, [("type", HVal.pystr "object"), ("additionalProperties", HVal.ref 1)]),
         (1, rest)]
        (HVal.ref 0)
      = some [(0, [("type", HVal.pystr "object"),
          ("additionalProperties", HVal.pybool false)]), (1, rest)] := by
  set_option maxHeartbeats 1000000 in
  simp [patchSchemaHeap, patchCompKeyHeap, patchPropsHeap, patchItemsHeap,
    patchAddPropsHeap, heapGet, heapSet, dictGet, dictSet, isObjectTypeH]

/-- Heap for the refutation of C2: at address 0 the dict
`{"type": "object", "additionalProperties": <ref 1>}` whose
`additionalProperties` holds a reference to the object-typed dict
`{"type": "object"}` at address 1. -/
def c2Heap : Heap :=
  [(0, [("type", HVal.pystr "object"), ("additionalProperties", HVal.ref 1)]),
   (1, [("type", HVal.pystr "object")])]

/-- The heap after patching `ref 0` in `c2Heap`: address 0 has its
`additionalProperties` overwritten with False, address 1 is byte-identical
to before — never visited, never normalized. -/
def c2HeapAfter : Heap :=
  [(0, [("type", HVal.pystr "object"), ("additionalProperties", HVal.pybool false)]),
   (1, [("type", HVal.pystr "object")])]

/-- C2 claims the schema-valued `additionalProperties` of an object-typed
node is visited and normalized before being overwritten with False, so
object-typed nodes inside it end up normalized. The code refutes this: it
overwrites the field with False first (line 26), and by the time the
recursion guard for `additionalProperties` runs (line 44) the field is a
boolean, so the discarded dict at address 1 is never visited — after the
patch it is exactly as before and carries no `additionalProperties` key,
hence is not normalized. -/
theorem C2_counterexample_discarded_subschema_not_visited :
    patchSchemaHeap 3 c2Heap (HVal.ref 0) = some c2HeapAfter
    ∧ heapGet c2HeapAfter 1 = some [("type", HVal.pystr "object")]
    ∧ isObjectTypeH [("type", HVal.pystr "object")] = true
    ∧ dictGet [("type", HVal.pystr "object")] "additionalProperties" = Option.none :=
  ⟨patchHeap_aP_ref_never_visited [("type", HVal.pystr "object")] 2, rfl, rfl, rfl⟩

/-- C2 amended: on a node whose `type` is "object",
`patch_schema_for_openai` overwrites `additionalProperties` with the boolean
False before the traversal step that examines that field runs, so a
schema-valued `additionalProperties` is discarded without being visited:
the dict it referenced is left completely untouched, and an object-typed
node inside it is normalized only if some other alias makes it reachable. -/
theorem C2_amended_overwrite_discards_without_visiting (rest : HDict) (fuel : Nat) :
    patchSchemaHeap (fuel + 1)
        [(0, [("type", HVal.pystr "object"), ("additionalProperties", HVal.ref 1)]),
         (1, rest)]
        (HVal.ref 0)
      = some [(0, [("type", HVal.pystr "object"),
          ("additionalProperties", HVal.pybool false)]), (1, rest)] :=
  patchHeap_aP_ref_never_visited rest fuel

/-- Witness for the amended C2 at a concrete stored dict and fuel. -/
theorem C2_witness :
    patchSchemaHeap 3
        [(0, [("type", HVal.pystr "object"), ("additionalProperties", HVal.ref 1)]),
         (1, [("title", HVal.pystr "inner")])]
        (HVal.ref 0)
      = some [(0, [("type", HVal.pystr "object"),
          ("additionalProperties", HVal.pybool false)]),
          (1, [("title", HVal.pystr "inner")])] :=
  C2_amended_overwrite_discards_without_visiting [("title", HVal.pystr "inner")] 2
